import Mathlib

/-!
Verification of the ccc message bridge: a shallow embedding of the persistent
message store (db.go), the delivery loop's per-session drain policy
(session.go), the transcript tailer and hook handlers, the chat poller's
callback/photo/text paths, and the pre-tool input summariser, together with
theorems settling the specification claims about them.

Conventions of the embedding:
- SQLite rows of the `messages` table are a `List MessageRecord`; the `id`
  PRIMARY KEY constraint shows up as a no-duplicate-ids invariant where needed.
- `UPDATE ... WHERE id = ?` statements become `updateById`.
- Go string primitives (`strings.ToLower`, `strings.Contains`,
  `strings.Split`, `strconv.Atoi`, `strings.TrimSpace`, slicing) are
  re-implemented structurally over `String.data` so that every definition
  kernel-evaluates on concrete input; they implement the ASCII behaviour,
  which covers every string the program compares against.
- Wall-clock reads (`time.Now().UnixMilli()` etc.) are passed in as explicit
  arguments.
-/

namespace Ccc

/-- ASCII lowering of one character, as `strings.ToLower` acts on ASCII. -/
def lowChar (c : Char) : Char :=
  if 65 ≤ c.toNat ∧ c.toNat ≤ 90 then Char.ofNat (c.toNat + 32) else c

/-- Embedding of Go `strings.ToLower` (ASCII range). -/
def lowStr (s : String) : String := ⟨s.data.map lowChar⟩

/-- Helper for substring search: does the list start with the given pattern? -/
def listStartsWith [DecidableEq α] : List α → List α → Bool
  | _, [] => true
  | [], _ :: _ => false
  | a :: as, b :: bs => if a = b then listStartsWith as bs else false

/-- Helper for substring search: does `needle` occur contiguously in `hay`? -/
def listHasSub [DecidableEq α] (hay needle : List α) : Bool :=
  match hay with
  | [] => needle.isEmpty
  | _ :: t => listStartsWith hay needle || listHasSub t needle

/-- Embedding of Go `strings.Contains`. -/
def strContains (hay needle : String) : Bool := listHasSub hay.data needle.data

/-- Embedding of Go byte-slicing `s[:n]` (character-level). -/
def strTake (s : String) (n : Nat) : String := ⟨s.data.take n⟩

/-- Whitespace test used by the `TrimSpace` embedding (ASCII whitespace). -/
def isSpaceChar (c : Char) : Bool := c = ' ' || c = '\t' || c = '\n' || c = '\r'

/-- Embedding of Go `strings.TrimSpace` (ASCII whitespace). -/
def trimStr (s : String) : String :=
  ⟨((s.data.dropWhile isSpaceChar).reverse.dropWhile isSpaceChar).reverse⟩

/-- Embedding of Go `strings.Split` on a single-character separator. -/
def splitChar (sep : Char) : List Char → List (List Char)
  | [] => [[]]
  | c :: t =>
    match splitChar sep t with
    | [] => [[c]]
    | g :: gs => if c = sep then [] :: g :: gs else (c :: g) :: gs

/-- Digit-string value, or `none` when empty or not all digits. -/
def digitsVal (l : List Char) : Option Nat :=
  if l.isEmpty then none
  else if l.all (fun c => 48 ≤ c.toNat ∧ c.toNat ≤ 57) then
    some (l.foldl (fun a c => a * 10 + (c.toNat - 48)) 0)
  else none

/-- Embedding of `strconv.Atoi` as the callers use it: the error is discarded,
so a failed parse yields the zero value. -/
def atoi (s : String) : Int :=
  match s.data with
  | '-' :: rest => match digitsVal rest with | some n => -(n : Int) | none => 0
  | l => match digitsVal l with | some n => (n : Int) | none => 0

/-! ## The message store (db.go) -/

/-- Mirror of `MessageRecord` (db.go): one row of the `messages` table.
`type` is one of user_prompt / assistant_text / tool_call / notification;
`origin` is terminal / telegram / claude. -/
structure MessageRecord where
  id : String
  session : String
  type : String
  text : String
  origin : String
  tgDelivered : Bool
  tgMsgID : Int
  retryCount : Nat
  timestamp : Int
deriving DecidableEq

/-- The `messages` table: its rows in insertion order. -/
abbrev DB := List MessageRecord

/-- Embedding of `UPDATE messages SET ... WHERE id = ?`. -/
def updateById (i : String) (g : MessageRecord → MessageRecord) (db : DB) : DB :=
  db.map (fun r => if r.id = i then g r else r)

/-- Timestamp defaulting done by `appendMessage` before the INSERT
(`if rec.Timestamp == 0 { rec.Timestamp = time.Now().UnixMilli() }`), plus the
literal `0` the INSERT writes for `retry_count`. -/
def normMsg (m : MessageRecord) (now : Int) : MessageRecord :=
  { m with timestamp := if m.timestamp = 0 then now else m.timestamp, retryCount := 0 }

/-- The `ON CONFLICT(id) DO UPDATE` clause of `appendMessage`:
`tg_delivered = MAX(tg_delivered, excluded.tg_delivered)`,
`tg_msg_id = CASE WHEN excluded.tg_msg_id > 0 THEN excluded.tg_msg_id ELSE tg_msg_id END`;
all other columns keep their stored values. -/
def conflictUpdate (old new : MessageRecord) : MessageRecord :=
  { old with tgDelivered := old.tgDelivered || new.tgDelivered,
             tgMsgID := if new.tgMsgID > 0 then new.tgMsgID else old.tgMsgID }

/-- Embedding of `appendMessage` (db.go): INSERT, or on id conflict the
upgrade-only UPDATE. -/
def appendMessage (m : MessageRecord) (now : Int) (db : DB) : DB :=
  if db.any (fun r => r.id = m.id) then
    updateById m.id (fun r => conflictUpdate r (normMsg m now)) db
  else db ++ [normMsg m now]

/-- Embedding of `markDelivered` (db.go): sets `tg_delivered = 1` and
`tg_msg_id` unconditionally. -/
def markDelivered (msgID : String) (tgMsgID : Int) (db : DB) : DB :=
  updateById msgID (fun r => { r with tgDelivered := true, tgMsgID := tgMsgID }) db

/-- Embedding of `incRetry` (db.go): `retry_count = retry_count + 1`. -/
def incRetry (msgID : String) (db : DB) : DB :=
  updateById msgID (fun r => { r with retryCount := r.retryCount + 1 }) db

/-- Row lookup by primary key (first matching row). -/
def lookupMsg : DB → String → Option MessageRecord
  | [], _ => none
  | r :: t, i => if r.id = i then some r else lookupMsg t i

/-- `maxRetries` constant (db.go). -/
def maxRetries : Nat := 5

/-- The WHERE clause of `findPending`:
`session = ? AND tg_delivered = 0 AND retry_count < maxRetries`. -/
def pendingFor (s : String) (r : MessageRecord) : Bool :=
  r.session = s ∧ r.tgDelivered = false ∧ r.retryCount < maxRetries

/-- Comparison used by `ORDER BY created_at`. -/
def tsLe (a b : MessageRecord) : Prop := a.timestamp ≤ b.timestamp

instance : DecidableRel tsLe :=
  fun a b => (inferInstance : Decidable (a.timestamp ≤ b.timestamp))

instance : IsTotal MessageRecord tsLe := ⟨fun a b => le_total a.timestamp b.timestamp⟩

instance : IsTrans MessageRecord tsLe := ⟨fun _ _ _ => le_trans⟩

/-- Embedding of `findPending` (db.go): the matching rows in
`ORDER BY created_at` order. -/
def findPending (db : DB) (s : String) : List MessageRecord :=
  List.insertionSort tsLe (db.filter (pendingFor s))

/-- Embedding of `isFromTelegram` (db.go): does a row with this session,
origin telegram, kind user_prompt and exactly this text exist? -/
def isFromTelegram (db : DB) (session promptText : String) : Bool :=
  db.any (fun r =>
    r.session = session ∧ r.origin = "telegram" ∧ r.type = "user_prompt" ∧ r.text = promptText)

/-- The fixed allowlist of permanent-error substrings (db.go). -/
def permanentErrors : List String :=
  ["chat not found", "bot was blocked", "bot was kicked",
   "chat_id is empty", "not enough rights", "PEER_ID_INVALID"]

/-- Embedding of `isPermanentError` (db.go). -/
def isPermanentError (errMsg : String) : Bool :=
  permanentErrors.any (fun p => strContains (lowStr errMsg) (lowStr p))

/-! ## Poller and hook write paths (session.go, hook handlers) -/

/-- The chat-text path of the poller's `listen` loop (session.go): it clears
tool state, records the prompt as an already-delivered chat-origin row with id
`tg:{updateID}`, and then injects the same text into the multiplexer window.
Returned are the store after the record and the injected text. -/
def pollerRecordChatPrompt (db : DB) (updateID : Int) (sess text : String) (now : Int) :
    DB × String :=
  (appendMessage
    { id := "tg:" ++ toString updateID, session := sess, type := "user_prompt",
      text := text, origin := "telegram", tgDelivered := true, tgMsgID := 0,
      retryCount := 0, timestamp := 0 } now db, text)

/-- The echo decision of `handleUserPromptHook`: when the prompt matches a
chat-origin row (`isFromTelegram`) the hook absorbs it silently; otherwise it
records a terminal-origin row with id `prompt:{sessionID}:{nanos}` for the
delivery loop to echo. Returns the store afterwards and whether an echo row
was inserted. -/
def userPromptHookRecord (db : DB) (sess prompt hookSessionID : String) (nowNanos now : Int) :
    DB × Bool :=
  if isFromTelegram db sess prompt then (db, false)
  else
    (appendMessage
      { id := "prompt:" ++ hookSessionID ++ ":" ++ toString nowNanos, session := sess,
        type := "user_prompt", text := prompt, origin := "terminal",
        tgDelivered := false, tgMsgID := 0, retryCount := 0, timestamp := 0 } now db, true)

/-- Caption defaulting in the poller's photo path (session.go):
`if caption == "" { caption = "Analyze this image:" }`. -/
def photoCaption (c : String) : String := if c = "" then "Analyze this image:" else c

/-- The photo path of the poller's `listen` loop (session.go): the recorded
row's text is the caption alone, while the injected prompt is the caption
followed by a space and the saved image path. -/
def pollerRecordPhoto (db : DB) (msgID : Int) (sess caption imgPath : String) (now : Int) :
    DB × String :=
  (appendMessage
    { id := "tg:" ++ toString msgID ++ ":photo", session := sess, type := "user_prompt",
      text := photoCaption caption, origin := "telegram", tgDelivered := true, tgMsgID := 0,
      retryCount := 0, timestamp := 0 } now db,
   photoCaption caption ++ " " ++ imgPath)

/-! ## The delivery loop's per-session drain (session.go `deliveryLoop`) -/

/-- Outcome of one `sendMessageHTMLGetID` upload attempt. -/
inductive UploadResult where
  | ok (tgMsgID : Int)
  | err (msg : String)

/-- The message kinds the loop uploads; every other kind (`tool_call` etc.) is
marked delivered with external id 0 and skipped. -/
def uploadableType (t : String) : Bool :=
  t = "user_prompt" || t = "assistant_text" || t = "notification"

/-- The user-visible notice for a permanently failed row. -/
def permanentDropNotice (e : String) : String :=
  "❌ Message dropped (permanent error): " ++ e

/-- The user-visible notice for a row dropped after the retry cap. -/
def retryDropNotice (n : Nat) (e : String) : String :=
  "❌ Message dropped after " ++ toString n ++ " retries: " ++ e

/-- The user-visible warning for a row that failed twice or more. -/
def sendFailedNotice (n : Nat) (e : String) : String :=
  "⚠️ Send failed (" ++ toString n ++ "/" ++ toString maxRetries ++ "): " ++ e

/-- Observable outcome of draining one session in one delivery cycle: the
store afterwards, the notices sent to the chat thread, and the ids of the rows
the loop reached (in order) before finishing or breaking. -/
structure DrainResult where
  db : DB
  notices : List String
  attempted : List String
deriving DecidableEq

/-- Embedding of the inner row loop of `deliveryLoop` (session.go) for one
session: rows are processed in order; a non-uploadable row is marked delivered
with external id 0 and skipped; on upload success the row is marked delivered
with the returned id; on failure the retry count is incremented first, then
the policy runs on `retry = msg.RetryCount + 1` (permanent → drop with notice;
`retry ≥ maxRetries` → drop with notice; `retry ≥ 2` → warning; else silent)
and in every failure case the loop `break`s out of this session's drain. -/
def drainSession (upload : MessageRecord → UploadResult) :
    List MessageRecord → DB → DrainResult
  | [], db => ⟨db, [], []⟩
  | msg :: rest, db =>
    if uploadableType msg.type then
      match upload msg with
      | .ok tgID =>
          let res := drainSession upload rest (markDelivered msg.id tgID db)
          ⟨res.db, res.notices, msg.id :: res.attempted⟩
      | .err e =>
          let db1 := incRetry msg.id db
          let retry := msg.retryCount + 1
          if isPermanentError e then
            ⟨markDelivered msg.id 0 db1, [permanentDropNotice e], [msg.id]⟩
          else if maxRetries ≤ retry then
            ⟨markDelivered msg.id 0 db1, [retryDropNotice retry e], [msg.id]⟩
          else if 2 ≤ retry then
            ⟨db1, [sendFailedNotice retry e], [msg.id]⟩
          else
            ⟨db1, [], [msg.id]⟩
    else
      let res := drainSession upload rest (markDelivered msg.id 0 db)
      ⟨res.db, res.notices, msg.id :: res.attempted⟩

/-! ## Store operations performed by the delivery pipeline (for the
retry-count invariant) -/

/-- One store mutation the delivery pipeline can perform: an `appendMessage`
from any producer, a `markDelivered` after an upload (or skip), or an
`incRetry` — the latter only ever on a row returned by `findPending`, which is
how `deliveryLoop` uses it. -/
inductive DeliveryStep : DB → DB → Prop where
  | append (m : MessageRecord) (now : Int) (db : DB) :
      DeliveryStep db (appendMessage m now db)
  | deliver (i : String) (tg : Int) (db : DB) :
      DeliveryStep db (markDelivered i tg db)
  | retry (m : MessageRecord) (db : DB) (hmem : m ∈ findPending db m.session) :
      DeliveryStep db (incRetry m.id db)

/-- Stores reachable from the empty table under the pipeline's operations. -/
inductive DeliveryReachable : DB → Prop where
  | init : DeliveryReachable []
  | step {db db' : DB} : DeliveryReachable db → DeliveryStep db db' → DeliveryReachable db'

/-! ## The transcript tailer (`extractRecentAssistantTexts`) -/

/-- One block of a transcript line's `message.content` list. -/
structure ContentBlock where
  type : String
  text : String
deriving DecidableEq

/-- One parsed line of the JSON-lines transcript, with the fields the tailer
reads. A missing `requestId` parses to the empty string (Go zero value), and a
`message.content` that fails to unmarshal acts exactly like one with no
qualifying blocks, so it is embedded as its block list. -/
structure TranscriptLine where
  type : String
  requestId : String
  isApiErrorMessage : Bool
  role : String
  content : List ContentBlock
deriving DecidableEq

/-- The tailer's line selection: `type="assistant"`, `message.role="assistant"`,
`isApiErrorMessage` absent or false, `requestId` present. -/
def lineSelected (l : TranscriptLine) : Bool :=
  l.type = "assistant" ∧ l.role = "assistant" ∧ l.isApiErrorMessage = false ∧ l.requestId ≠ ""

/-- The text blocks the tailer keeps from one line: blocks with
`type="text"` whose trimmed text is non-empty and not `(no content)`. -/
def lineTexts (l : TranscriptLine) : List String :=
  ((l.content.filter (fun b => b.type = "text")).map (fun b => trimStr b.text)).filter
    (fun t => t ≠ "" ∧ t ≠ "(no content)")

/-- Keep only the last `n` entries (`entries = entries[len(entries)-tailCount:]`). -/
def windowTail (n : Nat) (l : List α) : List α :=
  if l.length > n then l.drop (l.length - n) else l

/-- One step of the tailer's requestId dedup: overwrite the texts stored at
the requestId's first-occurrence position, or append a new entry. -/
def updateRid (acc : List (String × List String)) (rid : String) (texts : List String) :
    List (String × List String) :=
  if acc.any (fun p => p.1 = rid) then
    acc.map (fun p => if p.1 = rid then (rid, texts) else p)
  else acc ++ [(rid, texts)]

/-- The tailer's dedup loop over the windowed entries: an entry whose text
list is empty is skipped entirely (it neither registers nor supersedes). -/
def dedupFold (entries : List (String × List String)) : List (String × List String) :=
  entries.foldl (fun acc e => if e.2.isEmpty then acc else updateRid acc e.1 e.2) []

/-- Flattening of the dedup result into (requestId, text) pairs. -/
def flattenPairs (ps : List (String × List String)) : List (String × String) :=
  ps.foldr (fun p acc => p.2.map (fun t => (p.1, t)) ++ acc) []

/-- Embedding of `extractRecentAssistantTexts` (hook source file): select the
assistant lines, window to the last `tailCount`, extract each line's text
blocks, dedup by requestId keeping the latest non-empty texts at the
first-occurrence position, and flatten. -/
def extractRecentAssistantTexts (lines : List TranscriptLine) (tailCount : Nat) :
    List (String × String) :=
  flattenPairs (dedupFold
    ((windowTail tailCount (lines.filter lineSelected)).map
      (fun l => (l.requestId, lineTexts l))))

/-- First-occurrence order of the requestIds of a list of entries. -/
def firstKeys (entries : List (String × List String)) : List String :=
  entries.foldl (fun ks e => if e.1 ∈ ks then ks else ks ++ [e.1]) []

/-- Texts of the last entry carrying a given requestId (empty if none). -/
def lastTexts (entries : List (String × List String)) (rid : String) : List String :=
  (((entries.filter (fun e => e.1 = rid)).map (fun e => e.2)).getLast?).getD []

/-- Dedup written from the spec's supersession words, to be compared with the
code's fold: for each requestId in first-occurrence order, the texts of the
last entry carrying it. -/
def dedupSpec (entries : List (String × List String)) : List (String × List String) :=
  (firstKeys entries).map (fun r => (r, lastTexts entries r))

/-- The windowed entries of a transcript that carry at least one qualifying
text block. -/
def goodEntries (lines : List TranscriptLine) (tailCount : Nat) :
    List (String × List String) :=
  ((windowTail tailCount (lines.filter lineSelected)).map
    (fun l => (l.requestId, lineTexts l))).filter (fun e => !e.2.isEmpty)

/-- The last selected line of a transcript carrying a given requestId, as the
claim's words pick it out. -/
def lastLineFor (r : String) (lines : List TranscriptLine) (tailCount : Nat) :
    Option TranscriptLine :=
  ((windowTail tailCount (lines.filter lineSelected)).filter
    (fun l => l.requestId = r)).getLast?

/-! ## Pre-tool input summary (`toolInputSummary`) -/

/-- The string fields of the hook's `tool_input` payload that the summariser
reads (each is the empty string when absent, the Go zero value). -/
structure ToolInput where
  command : String
  filePath : String
  oldString : String
  pattern : String
  description : String
  query : String
  url : String
deriving DecidableEq

/-- The hook-payload fields the summariser reads. -/
structure HookData where
  toolName : String
  toolInput : ToolInput
deriving DecidableEq

/-- The `truncAt` bound of `toolInputSummary`. -/
def truncAt : Nat := 80

/-- The `trunc` closure of `toolInputSummary`: cut at 80 and append an
ellipsis. -/
def trunc (s : String) : String :=
  if s.length > truncAt then strTake s truncAt ++ "..." else s

/-- Newline rendering in the file-edit preview:
`strings.ReplaceAll(preview, "\n", "↵")` (a one-character pattern, so a
character map). -/
def renderNewlines (s : String) : String :=
  ⟨s.data.map (fun c => if c = '\n' then '↵' else c)⟩

/-- Embedding of `toolInputSummary` (hook source file); the Go `switch` on
the tool name, written as the equivalent comparison chain. -/
def toolInputSummary (hd : HookData) : String :=
  if hd.toolName = "Bash" then trunc hd.toolInput.command
  else if hd.toolName = "Read" ∨ hd.toolName = "Write" then hd.toolInput.filePath
  else if hd.toolName = "Edit" then
    if hd.toolInput.oldString ≠ "" then
      hd.toolInput.filePath ++ " `" ++
        renderNewlines
          (if hd.toolInput.oldString.length > 40 then
            strTake hd.toolInput.oldString 40 ++ "..."
          else hd.toolInput.oldString) ++ "`"
    else hd.toolInput.filePath
  else if hd.toolName = "Grep" ∨ hd.toolName = "Glob" then
    if hd.toolInput.pattern ≠ "" then trunc hd.toolInput.pattern
    else hd.toolInput.description
  else if hd.toolName = "WebSearch" then trunc hd.toolInput.query
  else if hd.toolName = "WebFetch" then trunc hd.toolInput.url
  else if hd.toolName = "Task" then trunc hd.toolInput.description
  else if hd.toolInput.description ≠ "" then trunc hd.toolInput.description
  else ""

/-! ## The poller's callback path (session.go `listen`) -/

/-- One observable action of the callback handler, in order: acknowledging
the callback, editing the question message (removing its keyboard), sending
one key to the session's multiplexer window, or sleeping. -/
inductive PollerAct where
  | answerCb
  | editRemoveKeyboard (chatID msgID : Int) (newText : String)
  | sendKey (k : String)
  | pauseMs (n : Nat)
deriving DecidableEq

/-- The fields of the callback's originating message that the handler uses. -/
structure CallbackMessage where
  chatID : Int
  messageID : Int
  text : String
deriving DecidableEq

/-- The fields of a Telegram callback query that the handler uses. -/
structure CallbackQuery where
  fromID : Int
  data : String
  message : Option CallbackMessage
deriving DecidableEq

/-- `strings.Split(cb.Data, ":")` as a list of strings. -/
def splitParts (s : String) : List String :=
  (splitChar ':' s.data).map (fun l => String.mk l)

/-- The Down keys sent to select an option, with the 50 ms sleep after each. -/
def downKeys : Nat → List PollerAct
  | 0 => []
  | n + 1 => PollerAct.sendKey "Down" :: PollerAct.pauseMs 50 :: downKeys n

/-- Embedding of the callback branch of the poller's `listen` loop
(session.go): authorization check, `answerCallbackQuery`, payload parse
(`session:questionIndex:totalQuestions:optionIndex`, or the legacy 3-part
form with no total), message edit recording the choice, and — when the
session's window exists — the key sequence `Down × optionIndex`, `Enter`,
plus a second `Enter` after a 300 ms pause when the question was the last. -/
def handleCallback (authorizedID : Int) (windowExists : Bool) (cb : CallbackQuery) :
    List PollerAct :=
  if cb.fromID ≠ authorizedID then []
  else
    let parts := splitParts cb.data
    if parts.length ≥ 3 then
      let questionIndex := atoi (parts.getD 1 "")
      let totalQuestions := if parts.length = 4 then atoi (parts.getD 2 "") else 0
      let optionIndex :=
        if parts.length = 4 then atoi (parts.getD 3 "") else atoi (parts.getD 2 "")
      let editActs :=
        match cb.message with
        | some m =>
            [PollerAct.editRemoveKeyboard m.chatID m.messageID
              (m.text ++ "\n\n✓ Selected option " ++ toString (optionIndex + 1))]
        | none => []
      let keyActs :=
        if windowExists then
          downKeys optionIndex.toNat ++ [PollerAct.sendKey "Enter"] ++
            (if totalQuestions > 0 ∧ questionIndex = totalQuestions - 1 then
              [PollerAct.pauseMs 300, PollerAct.sendKey "Enter"]
            else [])
        else []
      PollerAct.answerCb :: (editActs ++ keyActs)
    else [PollerAct.answerCb]

/-! ## Sequenced appends (for the upgrade-only claim) -/

/-- A sequence of `appendMessage` calls, each with its own wall-clock read. -/
def appendAll (l : List (MessageRecord × Int)) (db : DB) : DB :=
  l.foldl (fun d p => appendMessage p.1 p.2 d) db

/-! ## Concrete fixtures used by witnesses and counterexamples -/

/-- Witness for C5 at a concrete three-row table. -/
def dbC5 : DB :=
  [⟨"b1", "a", "user_prompt", "x", "terminal", false, 0, 0, 3⟩,
   ⟨"b2", "a", "user_prompt", "y", "terminal", true, 7, 0, 1⟩,
   ⟨"b3", "a", "notification", "z", "claude", false, 0, 0, 2⟩]

/-- Witness for C1: the first insert of a concrete record stores its fields. -/
def mC1 : MessageRecord :=
  ⟨"m1", "alpha", "user_prompt", "hi", "terminal", false, 0, 0, 7⟩

/-- Rows used by the C2 counterexample and witness: two pending user prompts
of session "b". -/
def m1C2 : MessageRecord := ⟨"m1", "b", "user_prompt", "one", "telegram", false, 0, 0, 1⟩

def m2C2 : MessageRecord := ⟨"m2", "b", "user_prompt", "two", "telegram", false, 0, 0, 2⟩

def dbC2 : DB := [m1C2, m2C2]

/-- An upload that always fails with a permanent Telegram error. -/
def upC2 : MessageRecord → UploadResult := fun _ => .err "Bad Request: chat not found"

/-- Row used by the C6 witness: one prior failure recorded. -/
def mC6 : MessageRecord := ⟨"w1", "b", "assistant_text", "t", "claude", false, 0, 1, 3⟩

/-- An upload that always fails with a transient error. -/
def upC6 : MessageRecord → UploadResult := fun _ => .err "connection timeout"

/-- Ids of the rows of a table. -/
def dbIds (db : DB) : List String := db.map (fun r => r.id)

/-- The store invariant maintained by the delivery pipeline: ids are unique
(the `id` PRIMARY KEY) and no retry count exceeds `maxRetries`. -/
def StoreInv (db : DB) : Prop :=
  (dbIds db).Nodup ∧ ∀ r ∈ db, r.retryCount ≤ maxRetries

/-- Row used by the C7 witness: a fresh pending user prompt. -/
def mC7 : MessageRecord := ⟨"r1", "s", "user_prompt", "t", "terminal", false, 0, 0, 4⟩

/-- A 100-character path for the C8 counterexample. -/
def longPathC8 : String := String.mk (List.replicate 100 'a')

/-- A file-read hook payload with the long path. -/
def hdC8 : HookData := ⟨"Read", ⟨"", longPathC8, "", "", "", "", ""⟩⟩

/-- A concrete authorized callback for the C9 witness. -/
def cbC9 : CallbackQuery := ⟨7, "proj:1:2:2", some ⟨10, 11, "Q"⟩⟩

/-- Transcript lines for the C3 counterexample: two streaming updates of the
same request, the later one with only a whitespace text block. -/
def lineA : TranscriptLine := ⟨"assistant", "r7", false, "assistant", [⟨"text", "a"⟩]⟩

def lineB : TranscriptLine := ⟨"assistant", "r7", false, "assistant", [⟨"text", "  "⟩]⟩

/-! ## Basic store lemmas -/

theorem lookup_any_true (db : DB) (i : String) (r : MessageRecord)
    (h : lookupMsg db i = some r) : db.any (fun x => x.id = i) = true := by
  induction db with
  | nil => simp [lookupMsg] at h
  | cons x t ih =>
    by_cases hx : x.id = i
    · simp [hx]
    · simp only [lookupMsg, if_neg hx] at h
      simp [ih h]

theorem lookup_any_false (db : DB) (i : String)
    (h : lookupMsg db i = none) : db.any (fun x => x.id = i) = false := by
  induction db with
  | nil => simp
  | cons x t ih =>
    by_cases hx : x.id = i
    · simp [lookupMsg, hx] at h
    · simp only [lookupMsg, if_neg hx] at h
      simp [hx, ih h]

theorem lookup_id_eq (db : DB) (i : String) (r : MessageRecord)
    (h : lookupMsg db i = some r) : r.id = i := by
  induction db with
  | nil => simp [lookupMsg] at h
  | cons x t ih =>
    by_cases hx : x.id = i
    · simp only [lookupMsg, if_pos hx] at h
      cases h
      exact hx
    · simp only [lookupMsg, if_neg hx] at h
      exact ih h

theorem updateById_id_eq (i : String) (g : MessageRecord → MessageRecord)
    (hg : ∀ r, (g r).id = r.id) (db : DB) :
    lookupMsg (updateById i g db) i = (lookupMsg db i).map g := by
  induction db with
  | nil => rfl
  | cons r t ih =>
    by_cases h : r.id = i
    · simp [updateById, lookupMsg, h, hg r]
    · simp only [updateById, List.map_cons, if_neg h, lookupMsg, hg] at *
      simp [h, ih]

theorem updateById_id_ne (i j : String) (hij : j ≠ i) (g : MessageRecord → MessageRecord)
    (hg : ∀ r, (g r).id = r.id) (db : DB) :
    lookupMsg (updateById i g db) j = lookupMsg db j := by
  induction db with
  | nil => rfl
  | cons r t ih =>
    by_cases h : r.id = i
    · have h' : ¬ r.id = j := by rw [h]; exact fun hc => hij hc.symm
      have h'' : ¬ (g r).id = j := by rw [hg r]; exact h'
      simp only [updateById, List.map_cons, if_pos h, lookupMsg, if_neg h', if_neg h'']
      exact ih
    · simp only [updateById, List.map_cons, if_neg h, lookupMsg]
      by_cases h2 : r.id = j
      · simp [h2]
      · simp only [if_neg h2]
        exact ih

theorem lookup_last_fresh (db : DB) (x : MessageRecord)
    (h : lookupMsg db x.id = none) :
    lookupMsg (db ++ [x]) x.id = some x := by
  induction db with
  | nil => simp [lookupMsg]
  | cons r t ih =>
    by_cases hx : r.id = x.id
    · simp [lookupMsg, hx] at h
    · simp only [lookupMsg, if_neg hx] at h
      simp only [List.cons_append, lookupMsg, if_neg hx]
      exact ih h

theorem lookup_append_fresh (db : DB) (m : MessageRecord)
    (h : lookupMsg db m.id = none) (now : Int) :
    lookupMsg (appendMessage m now db) m.id = some (normMsg m now) := by
  have hany := lookup_any_false db m.id h
  rw [appendMessage, if_neg (by simp [hany])]
  have hid : (normMsg m now).id = m.id := rfl
  rw [← hid] at h ⊢
  exact lookup_last_fresh db _ h

theorem lookup_append_conflict (db : DB) (m : MessageRecord) (r : MessageRecord)
    (h : lookupMsg db m.id = some r) (now : Int) :
    lookupMsg (appendMessage m now db) m.id = some (conflictUpdate r (normMsg m now)) := by
  have hany := lookup_any_true db m.id r h
  rw [appendMessage, if_pos (by simp [hany])]
  rw [updateById_id_eq m.id (fun x => conflictUpdate x (normMsg m now)) (fun _ => rfl) db, h]
  rfl

/-! ## Claim C5: findPending -/

theorem mem_findPending (db : DB) (s : String) (r : MessageRecord) :
    r ∈ findPending db s ↔ r ∈ db ∧ pendingFor s r = true := by
  unfold findPending
  rw [List.Perm.mem_iff (List.perm_insertionSort tsLe _), List.mem_filter]

/-- C5: for every session s, `findPending(s)` returns exactly the rows with
session = s, delivered = 0 and retry_count < 5, in non-decreasing
creation-timestamp order. -/
theorem findPending_exact_sorted (db : DB) (s : String) :
    (findPending db s).Perm (db.filter (pendingFor s)) ∧
    (∀ r : MessageRecord, r ∈ findPending db s ↔ r ∈ db ∧ pendingFor s r = true) ∧
    (findPending db s).Pairwise tsLe :=
  ⟨List.perm_insertionSort tsLe _, mem_findPending db s, List.sorted_insertionSort tsLe _⟩

theorem findPending_exact_sorted_witness :
    (findPending dbC5 "a").Perm (dbC5.filter (pendingFor "a")) ∧
    (∀ r : MessageRecord, r ∈ findPending dbC5 "a" ↔ r ∈ dbC5 ∧ pendingFor "a" r = true) ∧
    (findPending dbC5 "a").Pairwise tsLe :=
  findPending_exact_sorted dbC5 "a"

/-! ## Claim C1: append is insert-or-upgrade -/

theorem appendAll_keeps_first_fields (i : String) :
    ∀ (l : List (MessageRecord × Int)) (db0 : DB) (r : MessageRecord),
      lookupMsg db0 i = some r → (∀ p ∈ l, (p.1 : MessageRecord).id = i) →
      ∃ r', lookupMsg (appendAll l db0) i = some r' ∧
        r'.text = r.text ∧ r'.type = r.type ∧ r'.origin = r.origin
  | [], _, r, h, _ => ⟨r, h, rfl, rfl, rfl⟩
  | p :: t, db0, r, h, hl => by
    have hp : p.1.id = i := hl p (List.mem_cons_self p t)
    have h2 : lookupMsg db0 p.1.id = some r := by rw [hp]; exact h
    have h3 := lookup_append_conflict db0 p.1 r h2 p.2
    rw [hp] at h3
    have ht : ∀ q ∈ t, (q.1 : MessageRecord).id = i :=
      fun q hq => hl q (List.mem_cons_of_mem p hq)
    obtain ⟨r', hr', he1, he2, he3⟩ :=
      appendAll_keeps_first_fields i t (appendMessage p.1 p.2 db0) _ h3 ht
    exact ⟨r', hr', he1.trans rfl, he2.trans rfl, he3.trans rfl⟩

/-- C1: an `append` of a fresh id stores the record's text, kind, origin and
delivery fields; any later `append` with the same id applies exactly the
upgrade rule (delivered = max(old, new); external id = new if new > 0 else
old), so the delivered flag is monotone, a non-zero external id never becomes
zero, and text, kind and origin stay those of the first insert across any
sequence of conflicting appends. -/
theorem append_upgrade_only (db : DB) (m : MessageRecord) (now : Int)
    (h0 : lookupMsg db m.id = none) :
    (∃ r0, lookupMsg (appendMessage m now db) m.id = some r0 ∧
       r0.text = m.text ∧ r0.type = m.type ∧ r0.origin = m.origin ∧
       r0.tgDelivered = m.tgDelivered ∧ r0.tgMsgID = m.tgMsgID) ∧
    (∀ (db' : DB) (r m' : MessageRecord) (now' : Int),
       lookupMsg db' m.id = some r → m'.id = m.id →
       ∃ r', lookupMsg (appendMessage m' now' db') m.id = some r' ∧
         r'.tgDelivered = (r.tgDelivered || m'.tgDelivered) ∧
         r'.tgMsgID = (if m'.tgMsgID > 0 then m'.tgMsgID else r.tgMsgID) ∧
         (r.tgDelivered = true → r'.tgDelivered = true) ∧
         (r.tgMsgID ≠ 0 → r'.tgMsgID ≠ 0) ∧
         r'.text = r.text ∧ r'.type = r.type ∧ r'.origin = r.origin) ∧
    (∀ l : List (MessageRecord × Int), (∀ p ∈ l, (p.1 : MessageRecord).id = m.id) →
       ∃ r', lookupMsg (appendAll l (appendMessage m now db)) m.id = some r' ∧
         r'.text = m.text ∧ r'.type = m.type ∧ r'.origin = m.origin) := by
  refine ⟨⟨normMsg m now, lookup_append_fresh db m h0 now, rfl, rfl, rfl, rfl, rfl⟩, ?_, ?_⟩
  · intro db' r m' now' h hm'
    have h2 : lookupMsg db' m'.id = some r := by rw [hm']; exact h
    have h3 := lookup_append_conflict db' m' r h2 now'
    rw [hm'] at h3
    refine ⟨conflictUpdate r (normMsg m' now'), h3, rfl, rfl, ?_, ?_, rfl, rfl, rfl⟩
    · intro hd
      simp [conflictUpdate, hd]
    · intro hnz
      by_cases hpos : m'.tgMsgID > 0
      · simpa [conflictUpdate, normMsg, hpos] using ne_of_gt hpos
      · simpa [conflictUpdate, normMsg, hpos] using hnz
  · intro l hl
    exact appendAll_keeps_first_fields m.id l _ (normMsg m now)
      (lookup_append_fresh db m h0 now) hl

theorem append_upgrade_only_witness :
    ∃ r0, lookupMsg (appendMessage mC1 5 []) mC1.id = some r0 ∧
      r0.text = mC1.text ∧ r0.type = mC1.type ∧ r0.origin = mC1.origin ∧
      r0.tgDelivered = mC1.tgDelivered ∧ r0.tgMsgID = mC1.tgMsgID :=
  (append_upgrade_only [] mC1 5 rfl).1

/-! ## Claim C4: chat-prompt loopback -/

theorem any_append_row (db : DB) (x : MessageRecord) (p : MessageRecord → Bool) :
    (db ++ [x]).any p = (db.any p || p x) := by
  simp [List.any_append]

/-- C4: the poller records a chat-origin, delivered user_prompt row whose
text equals the prompt before injecting it, so the subsequent user-prompt
hook sees `isFromTelegram` true and inserts no duplicate terminal-origin
echo row. -/
theorem chat_prompt_loopback (db : DB) (updateID : Int)
    (sess text hookSessionID : String) (now nowNanos now' : Int)
    (hfresh : lookupMsg db ("tg:" ++ toString updateID) = none) :
    (pollerRecordChatPrompt db updateID sess text now).2 = text ∧
    (∃ row, lookupMsg (pollerRecordChatPrompt db updateID sess text now).1
        ("tg:" ++ toString updateID) = some row ∧
      row.session = sess ∧ row.type = "user_prompt" ∧ row.text = text ∧
      row.origin = "telegram" ∧ row.tgDelivered = true) ∧
    isFromTelegram (pollerRecordChatPrompt db updateID sess text now).1 sess text = true ∧
    userPromptHookRecord (pollerRecordChatPrompt db updateID sess text now).1
        sess text hookSessionID nowNanos now' =
      ((pollerRecordChatPrompt db updateID sess text now).1, false) := by
  set row : MessageRecord :=
    { id := "tg:" ++ toString updateID, session := sess, type := "user_prompt",
      text := text, origin := "telegram", tgDelivered := true, tgMsgID := 0,
      retryCount := 0, timestamp := 0 } with hrow
  have hid : row.id = "tg:" ++ toString updateID := rfl
  have hfresh' : lookupMsg db row.id = none := hfresh
  have hlook : lookupMsg (appendMessage row now db) row.id = some (normMsg row now) :=
    lookup_append_fresh db row hfresh' now
  have happ : appendMessage row now db = db ++ [normMsg row now] := by
    rw [appendMessage, if_neg (by simp [lookup_any_false db row.id hfresh'])]
  have htel : isFromTelegram (appendMessage row now db) sess text = true := by
    rw [happ, isFromTelegram, any_append_row]
    simp [normMsg]
  refine ⟨rfl, ⟨normMsg row now, hlook, rfl, rfl, rfl, rfl, rfl⟩, htel, ?_⟩
  have hp1 : (pollerRecordChatPrompt db updateID sess text now).1 = appendMessage row now db :=
    rfl
  rw [hp1]
  simp [userPromptHookRecord, htel]

/-- Witness for C4 at a concrete prompt. -/
theorem chat_prompt_loopback_witness :
    isFromTelegram (pollerRecordChatPrompt [] 9 "a" "fix the auth bug" 5).1
        "a" "fix the auth bug" = true ∧
    userPromptHookRecord (pollerRecordChatPrompt [] 9 "a" "fix the auth bug" 5).1
        "a" "fix the auth bug" "sid" 11 6 =
      ((pollerRecordChatPrompt [] 9 "a" "fix the auth bug" 5).1, false) :=
  ⟨(chat_prompt_loopback [] 9 "a" "fix the auth bug" "sid" 5 11 6 rfl).2.2.1,
   (chat_prompt_loopback [] 9 "a" "fix the auth bug" "sid" 5 11 6 rfl).2.2.2⟩

/-! ## Claim C10: photo prompts bypass the loopback check -/

/-- C10: the photo path records only the caption but injects caption plus
image path, so the hook's `isFromTelegram` check on the injected prompt fails
and a duplicate terminal-origin echo row is inserted. -/
theorem photo_prompt_duplicate_echo (db : DB) (msgID : Int)
    (sess caption imgPath hookSessionID : String) (now nowNanos now' : Int)
    (hfresh : lookupMsg db ("tg:" ++ toString msgID ++ ":photo") = none)
    (hnomatch : isFromTelegram db sess (photoCaption caption ++ " " ++ imgPath) = false)
    (hfresh2 : lookupMsg (pollerRecordPhoto db msgID sess caption imgPath now).1
        ("prompt:" ++ hookSessionID ++ ":" ++ toString nowNanos) = none) :
    (pollerRecordPhoto db msgID sess caption imgPath now).2 =
      photoCaption caption ++ " " ++ imgPath ∧
    (∃ row, lookupMsg (pollerRecordPhoto db msgID sess caption imgPath now).1
        ("tg:" ++ toString msgID ++ ":photo") = some row ∧
      row.text = photoCaption caption ∧ row.origin = "telegram" ∧ row.tgDelivered = true) ∧
    photoCaption caption ≠ photoCaption caption ++ " " ++ imgPath ∧
    isFromTelegram (pollerRecordPhoto db msgID sess caption imgPath now).1 sess
        (photoCaption caption ++ " " ++ imgPath) = false ∧
    (userPromptHookRecord (pollerRecordPhoto db msgID sess caption imgPath now).1 sess
        (photoCaption caption ++ " " ++ imgPath) hookSessionID nowNanos now').2 = true ∧
    (∃ dup, lookupMsg
        (userPromptHookRecord (pollerRecordPhoto db msgID sess caption imgPath now).1 sess
          (photoCaption caption ++ " " ++ imgPath) hookSessionID nowNanos now').1
        ("prompt:" ++ hookSessionID ++ ":" ++ toString nowNanos) = some dup ∧
      dup.origin = "terminal" ∧ dup.type = "user_prompt" ∧
      dup.text = photoCaption caption ++ " " ++ imgPath) := by
  set c : String := photoCaption caption with hc
  set prompt : String := c ++ " " ++ imgPath with hprompt
  set row : MessageRecord :=
    { id := "tg:" ++ toString msgID ++ ":photo", session := sess, type := "user_prompt",
      text := c, origin := "telegram", tgDelivered := true, tgMsgID := 0,
      retryCount := 0, timestamp := 0 } with hrow
  have hfresh' : lookupMsg db row.id = none := hfresh
  have hne : c ≠ prompt := by
    intro heq
    have hlen := congrArg String.length heq
    rw [hprompt, String.length_append, String.length_append] at hlen
    have : (" " : String).length = 1 := rfl
    omega
  have happ : (pollerRecordPhoto db msgID sess caption imgPath now).1 =
      db ++ [normMsg row now] := by
    rw [pollerRecordPhoto, appendMessage, if_neg (by simp [lookup_any_false db row.id hfresh'])]
  have hlook : lookupMsg (pollerRecordPhoto db msgID sess caption imgPath now).1 row.id =
      some (normMsg row now) := by
    rw [pollerRecordPhoto]
    exact lookup_append_fresh db row hfresh' now
  have hnot : isFromTelegram (pollerRecordPhoto db msgID sess caption imgPath now).1
      sess prompt = false := by
    rw [happ, isFromTelegram, any_append_row]
    rw [isFromTelegram] at hnomatch
    simp only [hnomatch, Bool.false_or]
    simp [normMsg, hne]
  have hhook : userPromptHookRecord (pollerRecordPhoto db msgID sess caption imgPath now).1
      sess prompt hookSessionID nowNanos now' =
      (appendMessage
        { id := "prompt:" ++ hookSessionID ++ ":" ++ toString nowNanos, session := sess,
          type := "user_prompt", text := prompt, origin := "terminal",
          tgDelivered := false, tgMsgID := 0, retryCount := 0, timestamp := 0 } now'
        (pollerRecordPhoto db msgID sess caption imgPath now).1, true) := by
    rw [userPromptHookRecord, if_neg]
    simp [hnot]
  refine ⟨rfl, ⟨normMsg row now, hlook, rfl, rfl, rfl⟩, hne, hnot, by rw [hhook], ?_⟩
  refine ⟨normMsg
    { id := "prompt:" ++ hookSessionID ++ ":" ++ toString nowNanos, session := sess,
      type := "user_prompt", text := prompt, origin := "terminal",
      tgDelivered := false, tgMsgID := 0, retryCount := 0, timestamp := 0 } now', ?_, rfl, rfl, rfl⟩
  rw [hhook]
  exact lookup_append_fresh _ _ hfresh2 now'

/-- Witness for C10 at a concrete captionless photo. -/
theorem photo_prompt_duplicate_echo_witness :
    isFromTelegram (pollerRecordPhoto [] 3 "a" "" "/tmp/x.jpg" 5).1 "a"
        (photoCaption "" ++ " " ++ "/tmp/x.jpg") = false ∧
    (userPromptHookRecord (pollerRecordPhoto [] 3 "a" "" "/tmp/x.jpg" 5).1 "a"
        (photoCaption "" ++ " " ++ "/tmp/x.jpg") "sid" 11 6).2 = true :=
  ⟨(photo_prompt_duplicate_echo [] 3 "a" "" "/tmp/x.jpg" "sid" 5 11 6 rfl rfl
      (by decide)).2.2.2.1,
   (photo_prompt_duplicate_echo [] 3 "a" "" "/tmp/x.jpg" "sid" 5 11 6 rfl rfl
      (by decide)).2.2.2.2.1⟩

/-! ## Claim C2: permanent upload failures -/

/-- Counterexample to C2 as stated: with two pending rows and a permanent
failure on the first, the cycle marks the first row dropped and notifies, but
it does NOT continue to the second pending row of the session in that cycle —
the drain breaks, leaving the second row for the next tick. -/
theorem permanent_error_break_cex :
    findPending dbC2 "b" = [m1C2, m2C2] ∧
    isPermanentError "Bad Request: chat not found" = true ∧
    (drainSession upC2 (findPending dbC2 "b") dbC2).notices =
      [permanentDropNotice "Bad Request: chat not found"] ∧
    (drainSession upC2 (findPending dbC2 "b") dbC2).attempted = ["m1"] ∧
    "m2" ∉ (drainSession upC2 (findPending dbC2 "b") dbC2).attempted ∧
    lookupMsg (drainSession upC2 (findPending dbC2 "b") dbC2).db "m2" = some m2C2 := by
  refine ⟨?_, ?_, ?_, ?_, ?_, ?_⟩ <;> decide

/-- C2 amended: on a permanent upload failure the loop increments the row's
retry count, marks it delivered with external id 0, emits the user-visible
"dropped (permanent)" notice — and then stops this session's drain for the
cycle (the remaining pending rows wait for the next tick). -/
theorem permanent_error_drop_and_stop (upload : MessageRecord → UploadResult)
    (msg m0 : MessageRecord) (rest : List MessageRecord) (db : DB) (e : String)
    (htype : uploadableType msg.type = true)
    (hup : upload msg = .err e)
    (hperm : isPermanentError e = true)
    (hm : lookupMsg db msg.id = some m0) :
    (drainSession upload (msg :: rest) db).notices = [permanentDropNotice e] ∧
    (drainSession upload (msg :: rest) db).attempted = [msg.id] ∧
    lookupMsg (drainSession upload (msg :: rest) db).db msg.id =
      some { m0 with tgDelivered := true, tgMsgID := 0,
                     retryCount := m0.retryCount + 1 } := by
  have hres : drainSession upload (msg :: rest) db =
      ⟨markDelivered msg.id 0 (incRetry msg.id db), [permanentDropNotice e], [msg.id]⟩ := by
    rw [drainSession]
    simp only [htype, if_true, hup, hperm]
  refine ⟨by rw [hres], by rw [hres], ?_⟩
  rw [hres]
  show lookupMsg (markDelivered msg.id 0 (incRetry msg.id db)) msg.id = _
  rw [markDelivered, updateById_id_eq msg.id (fun r => { r with tgDelivered := true, tgMsgID := (0 : Int) }) (fun _ => rfl) _,
      incRetry, updateById_id_eq msg.id (fun r => { r with retryCount := r.retryCount + 1 }) (fun _ => rfl) _, hm]
  rfl

/-- Witness for the amended C2 at the counterexample's first row. -/
theorem permanent_error_drop_and_stop_witness :
    (drainSession upC2 (m1C2 :: [m2C2]) dbC2).notices =
      [permanentDropNotice "Bad Request: chat not found"] ∧
    (drainSession upC2 (m1C2 :: [m2C2]) dbC2).attempted = [m1C2.id] ∧
    lookupMsg (drainSession upC2 (m1C2 :: [m2C2]) dbC2).db m1C2.id =
      some { m1C2 with tgDelivered := true, tgMsgID := 0,
                       retryCount := m1C2.retryCount + 1 } :=
  permanent_error_drop_and_stop upC2 m1C2 m1C2 [m2C2] dbC2
    "Bad Request: chat not found" rfl rfl (by decide) rfl

/-! ## Claim C6: transient-failure retry policy -/

/-- C6: a non-permanent failure increments the retry count first; with the
resulting count N, N = 1 is silent and stops the session's drain, 2 ≤ N < 5
warns "send failed (N/max)" and stops the drain, and N ≥ 5 drops the row
(delivered, external id 0) with the "dropped after N retries" notice — so the
first user-visible notification happens at the second failure. -/
theorem transient_failure_retry_policy (upload : MessageRecord → UploadResult)
    (msg m0 : MessageRecord) (rest : List MessageRecord) (db : DB) (e : String)
    (htype : uploadableType msg.type = true)
    (hup : upload msg = .err e)
    (hnp : isPermanentError e = false)
    (hm : lookupMsg db msg.id = some m0) :
    (drainSession upload (msg :: rest) db).attempted = [msg.id] ∧
    (msg.retryCount + 1 = 1 →
      (drainSession upload (msg :: rest) db).notices = [] ∧
      lookupMsg (drainSession upload (msg :: rest) db).db msg.id =
        some { m0 with retryCount := m0.retryCount + 1 }) ∧
    (2 ≤ msg.retryCount + 1 → msg.retryCount + 1 < maxRetries →
      (drainSession upload (msg :: rest) db).notices =
        [sendFailedNotice (msg.retryCount + 1) e] ∧
      lookupMsg (drainSession upload (msg :: rest) db).db msg.id =
        some { m0 with retryCount := m0.retryCount + 1 }) ∧
    (maxRetries ≤ msg.retryCount + 1 →
      (drainSession upload (msg :: rest) db).notices =
        [retryDropNotice (msg.retryCount + 1) e] ∧
      lookupMsg (drainSession upload (msg :: rest) db).db msg.id =
        some { m0 with tgDelivered := true, tgMsgID := 0,
                       retryCount := m0.retryCount + 1 }) := by
  have hinc : lookupMsg (incRetry msg.id db) msg.id =
      some { m0 with retryCount := m0.retryCount + 1 } := by
    rw [incRetry, updateById_id_eq msg.id (fun r => { r with retryCount := r.retryCount + 1 }) (fun _ => rfl) _, hm]
    rfl
  have hmark : lookupMsg (markDelivered msg.id 0 (incRetry msg.id db)) msg.id =
      some { m0 with tgDelivered := true, tgMsgID := 0,
                     retryCount := m0.retryCount + 1 } := by
    rw [markDelivered, updateById_id_eq msg.id (fun r => { r with tgDelivered := true, tgMsgID := (0 : Int) }) (fun _ => rfl) _, hinc]
    rfl
  by_cases h5 : maxRetries ≤ msg.retryCount + 1
  · have hres : drainSession upload (msg :: rest) db =
        ⟨markDelivered msg.id 0 (incRetry msg.id db),
         [retryDropNotice (msg.retryCount + 1) e], [msg.id]⟩ := by
      rw [drainSession]
      simp only [htype, if_true, hup, hnp, Bool.false_eq_true, if_false, if_pos h5]
    refine ⟨by rw [hres], ?_, ?_, ?_⟩
    · intro h1
      exact absurd h5 (by rw [h1]; decide)
    · intro _ hlt
      exact absurd h5 (by omega)
    · intro _
      exact ⟨by rw [hres], by rw [hres]; exact hmark⟩
  · by_cases h2 : 2 ≤ msg.retryCount + 1
    · have hres : drainSession upload (msg :: rest) db =
          ⟨incRetry msg.id db, [sendFailedNotice (msg.retryCount + 1) e], [msg.id]⟩ := by
        rw [drainSession]
        simp only [htype, if_true, hup, hnp, Bool.false_eq_true, if_false,
          if_neg h5, if_pos h2]
      refine ⟨by rw [hres], ?_, ?_, ?_⟩
      · intro h1
        omega
      · intro _ _
        exact ⟨by rw [hres], by rw [hres]; exact hinc⟩
      · intro h
        exact absurd h h5
    · have h1 : msg.retryCount = 0 := by omega
      have hres : drainSession upload (msg :: rest) db =
          ⟨incRetry msg.id db, [], [msg.id]⟩ := by
        rw [drainSession]
        simp only [htype, if_true, hup, hnp, Bool.false_eq_true, if_false,
          if_neg h5, if_neg h2]
      refine ⟨by rw [hres], ?_, ?_, ?_⟩
      · intro _
        exact ⟨by rw [hres], by rw [hres]; exact hinc⟩
      · intro h _
        exact absurd h h2
      · intro h
        exact absurd h h5

/-- Witness for C6: a second failure produces the first user-visible
warning. -/
theorem transient_failure_retry_policy_witness :
    (drainSession upC6 (mC6 :: []) [mC6]).notices =
      [sendFailedNotice (mC6.retryCount + 1) "connection timeout"] ∧
    lookupMsg (drainSession upC6 (mC6 :: []) [mC6]).db mC6.id =
      some { mC6 with retryCount := mC6.retryCount + 1 } :=
  (transient_failure_retry_policy upC6 mC6 mC6 [] [mC6] "connection timeout"
    rfl rfl (by decide) rfl).2.2.1 (by decide) (by decide)

/-! ## Claim C7: retry counts stay bounded -/

theorem dbIds_updateById (i : String) (g : MessageRecord → MessageRecord)
    (hg : ∀ r, (g r).id = r.id) (db : DB) :
    dbIds (updateById i g db) = dbIds db := by
  unfold dbIds updateById
  rw [List.map_map]
  apply List.map_congr_left
  intro r _
  by_cases h : r.id = i <;> simp [Function.comp, h, hg r]

theorem storeInv_markDelivered (i : String) (tg : Int) (db : DB)
    (h : StoreInv db) : StoreInv (markDelivered i tg db) := by
  rcases h with ⟨hnd, hbd⟩
  refine ⟨?_, ?_⟩
  · rw [markDelivered,
      dbIds_updateById i (fun r => { r with tgDelivered := true, tgMsgID := tg })
        (fun _ => rfl) db]
    exact hnd
  · intro r' hr'
    simp only [markDelivered, updateById] at hr'
    rcases List.mem_map.mp hr' with ⟨r, hr, rfl⟩
    by_cases hc : r.id = i
    · simp only [if_pos hc]
      exact hbd r hr
    · simp only [if_neg hc]
      exact hbd r hr

theorem storeInv_append (m : MessageRecord) (now : Int) (db : DB)
    (h : StoreInv db) : StoreInv (appendMessage m now db) := by
  rcases h with ⟨hnd, hbd⟩
  by_cases hany : db.any (fun r => r.id = m.id) = true
  · rw [appendMessage, if_pos hany]
    refine ⟨?_, ?_⟩
    · rw [dbIds_updateById m.id (fun r => conflictUpdate r (normMsg m now))
        (fun _ => rfl) db]
      exact hnd
    · intro r' hr'
      simp only [updateById] at hr'
      rcases List.mem_map.mp hr' with ⟨r, hr, rfl⟩
      by_cases hc : r.id = m.id
      · simp only [if_pos hc, conflictUpdate]
        exact hbd r hr
      · simp only [if_neg hc]
        exact hbd r hr
  · have hany' : db.any (fun r => r.id = m.id) = false :=
      Bool.eq_false_iff.mpr (fun hc => hany hc)
    rw [appendMessage, if_neg (by simp [hany'])]
    refine ⟨?_, ?_⟩
    · show ((db ++ [normMsg m now]).map (fun r => r.id)).Nodup
      rw [List.map_append, List.nodup_append]
      refine ⟨hnd, List.nodup_singleton _, ?_⟩
      intro a ha hb
      rcases List.mem_map.mp ha with ⟨r, hr, rfl⟩
      have hne : ¬ (r.id = m.id) := by
        have := List.any_eq_false.mp hany' r hr
        simpa using this
      simp only [List.map_cons, List.map_nil, List.mem_singleton] at hb
      exact hne hb
    · intro r' hr'
      rcases List.mem_append.mp hr' with hr | hr
      · exact hbd r' hr
      · simp only [List.mem_singleton] at hr
        subst hr
        simp [normMsg, maxRetries]

theorem storeInv_retry (m : MessageRecord) (db : DB)
    (h : StoreInv db) (hmem : m ∈ findPending db m.session) :
    StoreInv (incRetry m.id db) := by
  rcases h with ⟨hnd, hbd⟩
  obtain ⟨hmdb, hpend⟩ := (mem_findPending db m.session m).mp hmem
  have hretry : m.retryCount < maxRetries := by
    simp only [pendingFor, decide_eq_true_eq] at hpend
    exact hpend.2.2
  refine ⟨?_, ?_⟩
  · rw [incRetry,
      dbIds_updateById m.id (fun r => { r with retryCount := r.retryCount + 1 })
        (fun _ => rfl) db]
    exact hnd
  · intro r' hr'
    simp only [incRetry, updateById] at hr'
    rcases List.mem_map.mp hr' with ⟨r, hr, rfl⟩
    by_cases hc : r.id = m.id
    · have hrm : r = m := List.inj_on_of_nodup_map hnd hr hmdb hc
      subst hrm
      simp only [if_pos hc]
      show r.retryCount + 1 ≤ maxRetries
      omega
    · simp only [if_neg hc]
      exact hbd r hr

theorem reachable_storeInv (db : DB) (h : DeliveryReachable db) : StoreInv db := by
  induction h with
  | init => exact ⟨List.nodup_nil, fun r hr => absurd hr (List.not_mem_nil r)⟩
  | step hprev hs ih =>
    cases hs with
    | append m now db => exact storeInv_append m now _ ih
    | deliver i tg db => exact storeInv_markDelivered i tg _ ih
    | retry m db hmem => exact storeInv_retry m _ ih hmem

/-- C7: under the delivery pipeline's operation (appends, markDelivered, and
incRetry only on rows returned by findPending), every row's retry count stays
at most maxRetries, and a row whose retry count has reached maxRetries is
excluded from every pending scan. -/
theorem retry_count_bounded (db : DB) (h : DeliveryReachable db) :
    (∀ r ∈ db, r.retryCount ≤ maxRetries) ∧
    (∀ (r : MessageRecord) (s : String), maxRetries ≤ r.retryCount →
      r ∉ findPending db s) := by
  refine ⟨(reachable_storeInv db h).2, ?_⟩
  intro r s hge hmem
  obtain ⟨_, hpend⟩ := (mem_findPending db s r).mp hmem
  simp only [pendingFor, decide_eq_true_eq] at hpend
  omega

/-- Witness for C7: a store reached by one append and one retry step. -/
theorem retry_count_bounded_witness :
    (∀ r ∈ incRetry "r1" (appendMessage mC7 9 []), r.retryCount ≤ maxRetries) ∧
    (∀ (r : MessageRecord) (s : String), maxRetries ≤ r.retryCount →
      r ∉ findPending (incRetry "r1" (appendMessage mC7 9 [])) s) :=
  retry_count_bounded _
    (DeliveryReachable.step
      (DeliveryReachable.step DeliveryReachable.init (DeliveryStep.append mC7 9 []))
      (DeliveryStep.retry mC7 (appendMessage mC7 9 []) (by decide)))

/-! ## Claim C8: tool-input summary -/

theorem strTake_length_le (s : String) (n : Nat) : (strTake s n).length ≤ n := by
  show (s.data.take n).length ≤ n
  simp

theorem renderNewlines_length (s : String) : (renderNewlines s).length = s.length := by
  show (s.data.map _).length = s.data.length
  exact List.length_map _ _

theorem trunc_length_le (s : String) : (trunc s).length ≤ truncAt + 3 := by
  unfold trunc
  by_cases h : s.length > truncAt
  · rw [if_pos h, String.length_append]
    have h1 : (strTake s truncAt).length ≤ truncAt := strTake_length_le s truncAt
    have h3 : ("..." : String).length = 3 := rfl
    omega
  · rw [if_neg h]
    omega

theorem editPreview_length_le (old : String) :
    (renderNewlines (if old.length > 40 then strTake old 40 ++ "..." else old)).length ≤ 43 := by
  rw [renderNewlines_length]
  by_cases h : old.length > 40
  · rw [if_pos h, String.length_append]
    have h1 : (strTake old 40).length ≤ 40 := strTake_length_le old 40
    have h3 : ("..." : String).length = 3 := rfl
    omega
  · rw [if_neg h]
    omega

/-- Counterexample to C8 as stated: the file-read summary is the raw path,
not bounded at 80 characters (no truncation ellipsis either). -/
theorem toolInputSummary_unbounded_cex :
    toolInputSummary hdC8 = longPathC8 ∧
    (toolInputSummary hdC8).length = 100 ∧
    ¬ ((toolInputSummary hdC8).length ≤ truncAt + 3) := by
  refine ⟨rfl, by decide, by decide⟩

/-- C8 amended: the summary follows the per-tool mapping, and it is truncated
at 80 characters (plus the "..." ellipsis) only for shell commands,
text-search patterns, web-search queries, web-fetch URLs, task descriptions
and the default description; file-read/file-write return the raw path
unbounded, file-edit returns the raw path plus a bounded (≤ 46 characters)
old-string preview suffix, and the text-search description fallback is
returned unbounded. -/
theorem toolInputSummary_policy (hd : HookData) :
    (hd.toolName = "Bash" →
      toolInputSummary hd = trunc hd.toolInput.command ∧
      (toolInputSummary hd).length ≤ truncAt + 3) ∧
    ((hd.toolName = "Read" ∨ hd.toolName = "Write") →
      toolInputSummary hd = hd.toolInput.filePath) ∧
    (hd.toolName = "Edit" →
      (toolInputSummary hd).length ≤ hd.toolInput.filePath.length + 46) ∧
    ((hd.toolName = "Grep" ∨ hd.toolName = "Glob") →
      (hd.toolInput.pattern ≠ "" →
        toolInputSummary hd = trunc hd.toolInput.pattern ∧
        (toolInputSummary hd).length ≤ truncAt + 3) ∧
      (hd.toolInput.pattern = "" → toolInputSummary hd = hd.toolInput.description)) ∧
    (hd.toolName = "WebSearch" →
      toolInputSummary hd = trunc hd.toolInput.query ∧
      (toolInputSummary hd).length ≤ truncAt + 3) ∧
    (hd.toolName = "WebFetch" →
      toolInputSummary hd = trunc hd.toolInput.url ∧
      (toolInputSummary hd).length ≤ truncAt + 3) ∧
    (hd.toolName = "Task" →
      toolInputSummary hd = trunc hd.toolInput.description ∧
      (toolInputSummary hd).length ≤ truncAt + 3) ∧
    (hd.toolName ∉ ["Bash", "Read", "Write", "Edit", "Grep", "Glob",
        "WebSearch", "WebFetch", "Task"] →
      (toolInputSummary hd).length ≤ truncAt + 3) := by
  refine ⟨?_, ?_, ?_, ?_, ?_, ?_, ?_, ?_⟩
  · intro h
    have he : toolInputSummary hd = trunc hd.toolInput.command := by
      simp [toolInputSummary, h]
    exact ⟨he, he ▸ trunc_length_le _⟩
  · intro h
    rcases h with h | h <;> simp [toolInputSummary, h]
  · intro h
    have he : toolInputSummary hd =
        (if hd.toolInput.oldString ≠ "" then
          hd.toolInput.filePath ++ " `" ++
            renderNewlines
              (if hd.toolInput.oldString.length > 40 then
                strTake hd.toolInput.oldString 40 ++ "..."
              else hd.toolInput.oldString) ++ "`"
        else hd.toolInput.filePath) := by
      simp [toolInputSummary, h]
    rw [he]
    by_cases ho : hd.toolInput.oldString ≠ ""
    · rw [if_pos ho, String.length_append, String.length_append, String.length_append]
      have h1 : (" `" : String).length = 2 := rfl
      have h2 : ("`" : String).length = 1 := rfl
      have h3 := editPreview_length_le hd.toolInput.oldString
      omega
    · rw [if_neg ho]
      omega
  · intro h
    have he : toolInputSummary hd =
        (if hd.toolInput.pattern ≠ "" then trunc hd.toolInput.pattern
         else hd.toolInput.description) := by
      rcases h with h | h <;> simp [toolInputSummary, h]
    constructor
    · intro hp
      rw [he, if_pos hp]
      exact ⟨rfl, trunc_length_le _⟩
    · intro hp
      rw [he, if_neg (by simp [hp])]
  · intro h
    have he : toolInputSummary hd = trunc hd.toolInput.query := by
      simp [toolInputSummary, h]
    exact ⟨he, he ▸ trunc_length_le _⟩
  · intro h
    have he : toolInputSummary hd = trunc hd.toolInput.url := by
      simp [toolInputSummary, h]
    exact ⟨he, he ▸ trunc_length_le _⟩
  · intro h
    have he : toolInputSummary hd = trunc hd.toolInput.description := by
      simp [toolInputSummary, h]
    exact ⟨he, he ▸ trunc_length_le _⟩
  · intro h
    simp only [List.mem_cons, List.not_mem_nil, or_false, not_or] at h
    obtain ⟨h1, h2, h3, h4, h5, h6, h7, h8, h9⟩ := h
    have he : toolInputSummary hd =
        (if hd.toolInput.description ≠ "" then trunc hd.toolInput.description
         else "") := by
      simp [toolInputSummary, h1, h2, h3, h4, h5, h6, h7, h8, h9]
    rw [he]
    by_cases hdn : hd.toolInput.description ≠ ""
    · rw [if_pos hdn]
      exact trunc_length_le _
    · rw [if_neg hdn]
      show ("" : String).length ≤ truncAt + 3
      decide

/-- Witness for the amended C8: a shell command summary stays bounded. -/
theorem toolInputSummary_policy_witness :
    toolInputSummary ⟨"Bash", ⟨"ls -la", "", "", "", "", "", ""⟩⟩ =
      trunc "ls -la" ∧
    (toolInputSummary ⟨"Bash", ⟨"ls -la", "", "", "", "", "", ""⟩⟩).length ≤ truncAt + 3 :=
  (toolInputSummary_policy ⟨"Bash", ⟨"ls -la", "", "", "", "", "", ""⟩⟩).1 rfl

/-! ## Claim C9: callback key sequence -/

theorem downKeys_count_down (n : Nat) :
    (downKeys n).count (PollerAct.sendKey "Down") = n := by
  induction n with
  | zero => rfl
  | succ k ih => simp [downKeys, List.count_cons, ih]

theorem downKeys_count_enter (n : Nat) :
    (downKeys n).count (PollerAct.sendKey "Enter") = 0 := by
  induction n with
  | zero => rfl
  | succ k ih => simp [downKeys, List.count_cons, ih]

/-- C9: an authorized callback with payload
`sessionName:qIdx:totalQuestions:optIdx` makes the poller acknowledge the
callback, edit the question message to record the choice (removing the
keyboard), send Down exactly optIdx times followed by one Enter, and send one
additional Enter after a 300 ms pause exactly when qIdx = totalQuestions - 1. -/
theorem callback_actions (auth : Int) (cb : CallbackQuery)
    (s qs ts os : String) (q t o : Int) (m : CallbackMessage)
    (hfrom : cb.fromID = auth)
    (hmsg : cb.message = some m)
    (hsplit : splitParts cb.data = [s, qs, ts, os])
    (hq : atoi qs = q) (ht : atoi ts = t) (ho : atoi os = o)
    (htpos : 0 < t) :
    handleCallback auth true cb =
      PollerAct.answerCb ::
        PollerAct.editRemoveKeyboard m.chatID m.messageID
          (m.text ++ "\n\n✓ Selected option " ++ toString (o + 1)) ::
        (downKeys o.toNat ++ [PollerAct.sendKey "Enter"] ++
          (if q = t - 1 then [PollerAct.pauseMs 300, PollerAct.sendKey "Enter"] else [])) ∧
    (downKeys o.toNat).count (PollerAct.sendKey "Down") = o.toNat ∧
    (handleCallback auth true cb).count (PollerAct.sendKey "Enter") =
      (if q = t - 1 then 2 else 1) := by
  have hcond : ∀ (X Y : List PollerAct),
      (if t > 0 ∧ q = t - 1 then X else Y) = (if q = t - 1 then X else Y) := by
    intro X Y
    by_cases hq' : q = t - 1
    · rw [if_pos ⟨htpos, hq'⟩, if_pos hq']
    · rw [if_neg (fun hc => hq' hc.2), if_neg hq']
  have hcb : handleCallback auth true cb =
      PollerAct.answerCb ::
        PollerAct.editRemoveKeyboard m.chatID m.messageID
          (m.text ++ "\n\n✓ Selected option " ++ toString (o + 1)) ::
        (downKeys o.toNat ++ [PollerAct.sendKey "Enter"] ++
          (if q = t - 1 then [PollerAct.pauseMs 300, PollerAct.sendKey "Enter"] else [])) := by
    unfold handleCallback
    rw [if_neg (by simp [hfrom]), hsplit, hmsg]
    simp only [List.length_cons, List.length_nil, Nat.reduceAdd, ge_iff_le,
      Nat.reduceLeDiff, reduceIte, ite_true, List.getD, List.get?_cons_succ,
      List.get?_cons_zero, Option.getD_some, hq, ht, ho, hcond,
      List.singleton_append, List.cons_append, List.nil_append]
  refine ⟨hcb, downKeys_count_down o.toNat, ?_⟩
  rw [hcb]
  by_cases hq' : q = t - 1
  · rw [if_pos hq', if_pos hq']
    simp [List.count_cons, List.count_append, downKeys_count_enter]
  · rw [if_neg hq', if_neg hq']
    simp [List.count_cons, List.count_append, downKeys_count_enter]

/-- Witness for C9: option 2 of question 1 of 2 (the last question). -/
theorem callback_actions_witness :
    (handleCallback 7 true cbC9).count (PollerAct.sendKey "Enter") =
      (if (1 : Int) = 2 - 1 then 2 else 1) :=
  (callback_actions 7 cbC9 "proj" "1" "2" "2" 1 2 2 ⟨10, 11, "Q"⟩ rfl rfl (by decide)
    (by decide) (by decide) (by decide) (by decide)).2.2

/-! ## Claim C3: transcript tailer supersession -/

theorem dedupSpec_any_iff (es : List (String × List String)) (r : String) :
    ((dedupSpec es).any (fun p => p.1 = r) = true) ↔ r ∈ firstKeys es := by
  unfold dedupSpec
  rw [List.any_eq_true]
  constructor
  · rintro ⟨p, hp, hpr⟩
    rcases List.mem_map.mp hp with ⟨k, hk, rfl⟩
    have hk' : k = r := of_decide_eq_true hpr
    exact hk' ▸ hk
  · intro hr
    exact ⟨(r, lastTexts es r), List.mem_map.mpr ⟨r, hr, rfl⟩, by simp⟩

theorem firstKeys_append_one (es : List (String × List String)) (e : String × List String) :
    firstKeys (es ++ [e]) =
      if e.1 ∈ firstKeys es then firstKeys es else firstKeys es ++ [e.1] := by
  unfold firstKeys
  rw [List.foldl_append]
  rfl

theorem lastTexts_append_one (es : List (String × List String))
    (e : String × List String) (r : String) :
    lastTexts (es ++ [e]) r = if r = e.1 then e.2 else lastTexts es r := by
  unfold lastTexts
  rw [List.filter_append]
  by_cases h : r = e.1
  · rw [if_pos h]
    have hf : ([e].filter (fun x => x.1 = r)) = [e] := by
      simp [List.filter_cons, h.symm]
    rw [hf, List.map_append]
    simp
  · rw [if_neg h]
    have hf : ([e].filter (fun x => x.1 = r)) = [] := by
      simp [List.filter_cons]
      exact fun hc => absurd hc.symm h
    rw [hf, List.append_nil]

theorem foldl_updateRid_eq_dedupSpec (es : List (String × List String)) :
    es.foldl (fun acc e => updateRid acc e.1 e.2) [] = dedupSpec es := by
  induction es using List.reverseRecOn with
  | nil => rfl
  | append_singleton es e ih =>
    rw [List.foldl_append, List.foldl_cons, List.foldl_nil, ih]
    unfold updateRid
    by_cases hmem : e.1 ∈ firstKeys es
    · rw [if_pos ((dedupSpec_any_iff es e.1).mpr hmem)]
      unfold dedupSpec
      rw [firstKeys_append_one, if_pos hmem, List.map_map]
      apply List.map_congr_left
      intro k _
      by_cases hkr : k = e.1
      · subst hkr
        simp [Function.comp, lastTexts_append_one]
      · simp [Function.comp, hkr, lastTexts_append_one]
    · rw [if_neg (fun hc => hmem ((dedupSpec_any_iff es e.1).mp hc))]
      unfold dedupSpec
      rw [firstKeys_append_one, if_neg hmem, List.map_append]
      congr 1
      · apply List.map_congr_left
        intro k hk
        have hkr : k ≠ e.1 := fun hc => hmem (hc ▸ hk)
        simp [lastTexts_append_one, hkr]
      · simp [lastTexts_append_one]

theorem foldl_skip_empty (es : List (String × List String)) :
    ∀ acc, es.foldl (fun acc e => if e.2.isEmpty then acc else updateRid acc e.1 e.2) acc
      = (es.filter (fun e => !e.2.isEmpty)).foldl (fun acc e => updateRid acc e.1 e.2) acc := by
  induction es with
  | nil => intro _; rfl
  | cons e t ih =>
    intro acc
    by_cases h : e.2.isEmpty = true
    · rw [List.foldl_cons, if_pos h, List.filter_cons_of_neg (by simp [h]), ih]
    · rw [List.foldl_cons, if_neg h, List.filter_cons_of_pos (by simp [h]),
        List.foldl_cons, ih]

/-- C3 amended: the tailer returns, for each request id in first-occurrence
order, the text blocks of the LAST selected line carrying that id that has at
least one qualifying text block — a later line for the same request id whose
text blocks all filter out does not supersede — and lines with
isApiErrorMessage set or no requestId contribute nothing. -/
theorem tailer_supersession (lines : List TranscriptLine) (n : Nat) :
    extractRecentAssistantTexts lines n = flattenPairs (dedupSpec (goodEntries lines n)) ∧
    extractRecentAssistantTexts lines n =
      extractRecentAssistantTexts
        (lines.filter (fun l => l.isApiErrorMessage = false ∧ l.requestId ≠ "")) n := by
  constructor
  · unfold extractRecentAssistantTexts goodEntries dedupFold
    rw [foldl_skip_empty, foldl_updateRid_eq_dedupSpec]
  · have hsel : (lines.filter
        (fun l => l.isApiErrorMessage = false ∧ l.requestId ≠ "")).filter lineSelected =
        lines.filter lineSelected := by
      rw [List.filter_filter]
      apply List.filter_congr
      intro l _
      by_cases h : lineSelected l = true
      · have hk : l.isApiErrorMessage = false ∧ l.requestId ≠ "" := by
          have := of_decide_eq_true (by simpa [lineSelected] using h)
          exact ⟨this.2.2.1, this.2.2.2⟩
        simp [h, hk]
      · simp [Bool.eq_false_iff.mpr h]
    unfold extractRecentAssistantTexts
    rw [hsel]

/-- Counterexample to C3 as stated: the last line carrying r7 is lineB, whose
qualifying text blocks are empty, yet the text "a" from the earlier line is
returned — the output is not the text-block list of the last line carrying
the id. -/
theorem tailer_last_line_cex :
    extractRecentAssistantTexts [lineA, lineB] 80 = [("r7", "a")] ∧
    lastLineFor "r7" [lineA, lineB] 80 = some lineB ∧
    lineTexts lineB = [] ∧
    ("r7", "a") ∈ extractRecentAssistantTexts [lineA, lineB] 80 ∧
    "a" ∉ lineTexts lineB := by
  refine ⟨?_, ?_, ?_, ?_, ?_⟩ <;> decide

/-- Witness for the amended C3 at the counterexample transcript. -/
theorem tailer_supersession_witness :
    extractRecentAssistantTexts [lineA, lineB] 80 =
      flattenPairs (dedupSpec (goodEntries [lineA, lineB] 80)) ∧
    extractRecentAssistantTexts [lineA, lineB] 80 =
      extractRecentAssistantTexts
        ([lineA, lineB].filter
          (fun l => l.isApiErrorMessage = false ∧ l.requestId ≠ "")) 80 :=
  tailer_supersession [lineA, lineB] 80
